import Mathlib

/-!
Shallow embedding of the ingestion pipeline in `src/services/dataProcessor.ts`
(Data Sheet Consolidator): delimiter/encoding discovery for delimited text,
multi-sheet extraction for workbooks, schema unification, sample-based type
inference and dataset-wide conversion.  Host-language primitives
(`String(...).trim()`, `parseFloat`, `parseInt`, `Number`, `isNaN`,
`isFinite`, JS `Set` and object-key semantics) are modelled explicitly below;
the external parsers (Papa.parse, XLSX.read, FileReader) are treated as
oracles supplied as arguments, since their outputs are what the repository's
own code consumes.
-/

namespace DataProc

/- ## JS string primitives -/

/-- Strip leading and trailing whitespace from a character list. -/
def trimChars (l : List Char) : List Char :=
  ((l.dropWhile Char.isWhitespace).reverse.dropWhile Char.isWhitespace).reverse

/-- JS `String.prototype.trim`, modelled on ASCII whitespace
(the exotic Unicode space code points JS also strips are not modelled). -/
def jsTrim (s : String) : String := ⟨trimChars s.data⟩

/-- Lower-casing of one ASCII letter. -/
def jsCharToLower (c : Char) : Char :=
  if 'A' ≤ c && c ≤ 'Z' then Char.ofNat (c.toNat + 32) else c

/-- JS `String.prototype.toLowerCase`, modelled on ASCII letters. -/
def jsToLower (s : String) : String := ⟨s.data.map jsCharToLower⟩

/-- JS `String.prototype.endsWith`. -/
def jsEndsWith (s suffix : String) : Bool := suffix.data.isSuffixOf s.data

def digitVal (c : Char) : Nat := c.toNat - 48

/-- Value of a base-10 digit string, most significant digit first. -/
def digitsToNat (ds : List Char) : Nat := ds.foldl (fun a c => a * 10 + digitVal c) 0

def isHexDigitChar (c : Char) : Bool :=
  c.isDigit || (('a' ≤ c && c ≤ 'f') || ('A' ≤ c && c ≤ 'F'))

def hexDigitVal (c : Char) : Nat :=
  if c.isDigit then c.toNat - 48
  else if 'a' ≤ c && c ≤ 'f' then c.toNat - 87
  else c.toNat - 55

/-- Value of a digit string in base `b` (used for JS `0x`/`0o`/`0b` literals). -/
def digitsToNatBase (b : Nat) (ds : List Char) : Nat :=
  ds.foldl (fun a c => a * b + hexDigitVal c) 0

/- ## JS numeric primitives

`isNumberString` in the source is `!isNaN(parseFloat(val)) && isFinite(Number(val))`;
the pieces of that expression are modelled one by one. -/

/-- Splits an optional leading `+`/`-` sign off a character list. -/
def splitSign : List Char → Bool × List Char
  | '-' :: r => (true, r)
  | '+' :: r => (false, r)
  | r => (false, r)

/-- Parses the exponent part of a JS decimal literal: either nothing is left,
or the whole remainder is `e`/`E`, an optional sign and at least one digit.
Returns the signed exponent, or `none` if the remainder is not of this shape. -/
def parseExpPart : List Char → Option Int
  | [] => some 0
  | c :: r =>
    if c = 'e' || c = 'E' then
      let (neg, r1) := splitSign r
      let (ds, r2) := r1.span Char.isDigit
      if ds = [] || r2 ≠ [] then none
      else some (if neg then -(digitsToNat ds : Int) else (digitsToNat ds : Int))
    else none

/-- Full match of an unsigned JS decimal literal (digits, optional fraction,
optional exponent; also `.digits` forms).  Returns the significand as a `Nat`
together with a base-10 exponent, so the exact value is `m * 10 ^ e`. -/
def parseDecMag (cs : List Char) : Option (Nat × Int) :=
  let (ip, r1) := cs.span Char.isDigit
  match r1 with
  | '.' :: r2 =>
    let (fp, r3) := r2.span Char.isDigit
    if ip = [] && fp = [] then none
    else (parseExpPart r3).map fun e => (digitsToNat (ip ++ fp), e - (fp.length : Int))
  | _ =>
    if ip = [] then none
    else (parseExpPart r1).map fun e => (digitsToNat ip, e)

/-- Full match of an unsigned JS radix literal `0x…`/`0o…`/`0b…`; exact value. -/
def parseRadixMag : List Char → Option Nat
  | '0' :: c :: ds =>
    if (c = 'x' || c = 'X') && (ds ≠ [] && ds.all isHexDigitChar) then
      some (digitsToNatBase 16 ds)
    else if (c = 'o' || c = 'O') && (ds ≠ [] && ds.all fun d => '0' ≤ d && d ≤ '7') then
      some (digitsToNatBase 8 ds)
    else if (c = 'b' || c = 'B') && (ds ≠ [] && ds.all fun d => d = '0' || d = '1') then
      some (digitsToNatBase 2 ds)
    else none
  | _ => none

/-- Smallest magnitude an IEEE-754 double rounds to infinity:
`2^1024 - 2^970` (the midpoint above the largest finite double). -/
def jsOverflowBound : Nat := 2 ^ 1024 - 2 ^ 970

/-- Whether the exact value `m * 10 ^ e` stays below the double overflow bound. -/
def decFinite (m : Nat) (e : Int) : Bool :=
  if 0 ≤ e then m * 10 ^ e.toNat < jsOverflowBound
  else m < jsOverflowBound * 10 ^ (-e).toNat

/-- Whether an unsigned JS numeric-literal body converts (via `Number`) to a
finite double: `Infinity` does not; a radix literal (only legal without a
sign, which the caller enforces) or a decimal literal does iff its exact
magnitude is below the overflow bound; anything else is `NaN`, not finite. -/
def unsignedNumberFinite (allowRadix : Bool) (cs : List Char) : Bool :=
  if cs = "Infinity".data then false
  else
    match (if allowRadix then parseRadixMag cs else none) with
    | some m => m < jsOverflowBound
    | none =>
      match parseDecMag cs with
      | some (m, e) => decFinite m e
      | none => false

/-- JS `isFinite(Number(val))`: trims, maps the empty string to `0` (finite),
requires the whole remaining string to be one numeric literal, and checks the
double does not overflow.  A sign is only legal on decimal/`Infinity` forms. -/
def numberIsFinite (s : String) : Bool :=
  match (jsTrim s).data with
  | [] => true
  | '+' :: r => unsignedNumberFinite false r
  | '-' :: r => unsignedNumberFinite false r
  | cs => unsignedNumberFinite true cs

/-- JS `!isNaN(parseFloat(val))`: after skipping leading whitespace and an
optional sign, the string must continue with a digit, a dot followed by a
digit, or `Infinity`. -/
def parseFloatDefined (s : String) : Bool :=
  let cs := s.data.dropWhile Char.isWhitespace
  let (_, body) := splitSign cs
  match body with
  | [] => false
  | '.' :: rest =>
    match rest with
    | d :: _ => d.isDigit
    | [] => false
  | c :: _ => c.isDigit || "Infinity".data.isPrefixOf body

/-- JS `parseFloat`, as the exact rational value of the longest decimal-literal
prefix.  Only ever applied by the pipeline under the `isNumberString` guard,
which rules out `NaN`/`Infinity` results; those cases return `0` here. -/
def jsParseFloatQ (s : String) : ℚ :=
  let cs := s.data.dropWhile Char.isWhitespace
  let (neg, body) := splitSign cs
  let (ip, r1) := body.span Char.isDigit
  let (fp, r2) :=
    match r1 with
    | '.' :: r => r.span Char.isDigit
    | _ => ([], r1)
  if ip = [] && fp = [] then 0
  else
    let e : Int :=
      match r2 with
      | c :: r3 =>
        if c = 'e' || c = 'E' then
          let (eneg, r4) := splitSign r3
          let (ed, _) := r4.span Char.isDigit
          if ed = [] then 0
          else if eneg then -(digitsToNat ed : Int) else (digitsToNat ed : Int)
        else 0
      | [] => 0
    let mag : ℚ := (digitsToNat (ip ++ fp) : ℚ) * (10 : ℚ) ^ (e - (fp.length : Int))
    if neg then -mag else mag

/-- JS `parseInt(s, 10)`: skip whitespace, optional sign, longest digit run.
Only ever applied by the pipeline under the `isIntegerString` guard, where the
whole trimmed string is a signed digit run; the exact integer is returned
(the double rounding JS applies above `2^53` is not modelled). -/
def jsParseIntDec (s : String) : Int :=
  let cs := s.data.dropWhile Char.isWhitespace
  let (neg, body) := splitSign cs
  let (ds, _) := body.span Char.isDigit
  if ds = [] then 0
  else if neg then -(digitsToNat ds : Int) else (digitsToNat ds : Int)

/- ## The four cell-type recognizers (`dataProcessor.ts` lines 123-134) -/

/-- Source `isBooleanString`: case-insensitive membership in
true/false/yes/no/1/0. -/
def isBooleanString (val : String) : Bool :=
  let lower := jsToLower val
  lower = "true" || lower = "false" || lower = "yes" || lower = "no" ||
    lower = "1" || lower = "0"

/-- Source `toBoolean`: case-insensitive membership in true/yes/1. -/
def toBoolean (val : String) : Bool :=
  let lower := jsToLower val
  lower = "true" || lower = "yes" || lower = "1"

/-- Source `isIntegerString`: the regex test for one optional leading minus followed
by one or more base-10 digits, matching the whole string. -/
def isIntegerString (val : String) : Bool :=
  match val.data with
  | '-' :: rest => rest ≠ [] && rest.all Char.isDigit
  | l => l ≠ [] && l.all Char.isDigit

/-- Source `isNumberString`: the test `!isNaN(parseFloat(val)) && isFinite(Number(val))`. -/
def isNumberString (val : String) : Bool :=
  parseFloatDefined val && numberIsFinite val

/- ## Data model -/

/-- A cell value after the conversion pass: JS `null`, a string left as-is, a
boolean, an integer from `parseInt`, or a number from `parseFloat` (modelled
as an exact rational). -/
inductive CellValue where
  | null
  | str (s : String)
  | bool (b : Bool)
  | int (n : Int)
  | num (q : ℚ)
deriving DecidableEq, Repr

/-- A parsed row before type conversion: an ordered JS object whose values are
`null` (`none`) or text (`some s`), as produced by Papa.parse with
`header: true` and by `sheet_to_json` with `defval: null, raw: false`. -/
abbrev RawRow := List (String × Option String)

/-- A row after the conversion pass. -/
abbrev TypedRow := List (String × CellValue)

/-- A row-level diagnostic from Papa.parse. -/
structure PapaErr where
  code : String
  message : String
  row : Nat
deriving DecidableEq, Repr

/-- One tabular parse result: rows, row-level diagnostics, and the ordered
field (header) names from `meta.fields`. -/
structure ParseResult where
  data : List RawRow
  errors : List PapaErr
  fields : List String
deriving DecidableEq, Repr

/-- A non-fatal processing notice `{fileName, reason}`. -/
structure Notice where
  fileName : String
  reason : String
deriving DecidableEq, Repr

/-- JS object property assignment `obj[k] = v` on an insertion-ordered object
modelled as an association list with unique keys: an existing key keeps its
position and gets the new value; a new key is appended. -/
def jsObjSet (l : List (String × α)) (k : String) (v : α) : List (String × α) :=
  if l.any fun p => p.1 = k then
    l.map fun p => if p.1 = k then (k, v) else p
  else l ++ [(k, v)]

/-- JS `Set.prototype.add` on an insertion-ordered set modelled as a list:
append if not already present. -/
def jsSetAdd (l : List String) (x : String) : List String :=
  if x ∈ l then l else l ++ [x]

/- ## TypeInferenceEngine (`inferAndConvertTypes`, lines 136-213) -/

/-- The four column types of `columnTypes`. -/
inductive ColType where
  | boolean
  | integer
  | number
  | string
deriving DecidableEq, Repr

/-- Whether `row[header]` is skipped by the inference loop:
`value === null || value === undefined || String(value).trim() === ''`.
A missing key (`none` lookup) is JS `undefined`. -/
def cellEmptyAt (r : RawRow) (h : String) : Bool :=
  match r.lookup h with
  | none => true
  | some none => true
  | some (some s) => jsTrim s = ""

/-- The trimmed string value the inference loop inspects for `row[header]`
(only meaningful when `cellEmptyAt` is false). -/
def trimmedValAt (r : RawRow) (h : String) : String :=
  match r.lookup h with
  | some (some s) => jsTrim s
  | _ => ""

/-- The elimination loop over the sample for one header: the three
`isPotentially…` flags, with the early `break` once all are false. -/
def elimFlags (h : String) : List RawRow → Bool × Bool × Bool → Bool × Bool × Bool
  | [], f => f
  | r :: rs, (b, i, n) =>
    if cellEmptyAt r h then elimFlags h rs (b, i, n)
    else
      let sv := trimmedValAt r h
      let b' := b && isBooleanString sv
      let i' := i && isIntegerString sv
      let n' := n && isNumberString sv
      if !b' && !i' && !n' then (b', i', n')
      else elimFlags h rs (b', i', n')

/-- The guard on choosing boolean:
`sample.some(r => r[header] !== null && String(r[header]).trim() !== '')`.
Note the JS quirk: a missing key gives `undefined`, which is `!== null` and
stringifies to the non-empty text "undefined", so it passes this guard. -/
def sampleHasNonEmpty (sample : List RawRow) (h : String) : Bool :=
  sample.any fun r =>
    match r.lookup h with
    | none => true
    | some none => false
    | some (some s) => jsTrim s ≠ ""

/-- Column classification from the sample (lines 144-176). -/
def inferColumn (sample : List RawRow) (h : String) : ColType :=
  let (b, i, n) := elimFlags h sample (true, true, true)
  if b && sampleHasNonEmpty sample h then .boolean
  else if i then .integer
  else if n then .number
  else .string

/-- The `columnTypes` object: one inferred type per header, from the first
500 rows. -/
def columnTypesOf (headers : List String) (data : List RawRow) : List (String × ColType) :=
  headers.map fun h => (h, inferColumn (data.take 500) h)

/-- The conversion applied to one cell (lines 184-209): blank/null cells are
standardized to `null`; otherwise the column's conversion is applied only if
the individual trimmed value matches that type's recognizer, else the original
value is kept.  `ct = none` is the `switch` on an `undefined` column type. -/
def convertCell (ct : Option ColType) (v : Option String) : CellValue :=
  match v with
  | none => .null
  | some s =>
    if jsTrim s = "" then .null
    else
      let sv := jsTrim s
      match ct with
      | some .boolean => if isBooleanString sv then .bool (toBoolean sv) else .str s
      | some .integer => if isIntegerString sv then .int (jsParseIntDec sv) else .str s
      | some .number => if isNumberString sv then .num (jsParseFloatQ sv) else .str s
      | some .string => .str s
      | none => .str s

/-- The conversion applied to one row: `{...row}` then an in-place update of
every own key. -/
def convertRow (types : List (String × ColType)) (row : RawRow) : TypedRow :=
  row.map fun p => (p.1, convertCell (types.lookup p.1) p.2)

/-- Source `inferAndConvertTypes` (lines 136-213). -/
def inferAndConvertTypes (headers : List String) (data : List RawRow) : List TypedRow :=
  if data.length = 0 then []
  else data.map (convertRow (columnTypesOf headers data))

/- ## DelimitedTextParser (`parseCsvFile`, lines 24-73) -/

/-- The fixed encoding preference order. -/
def encodingsToTry : List String := ["UTF-8", "windows-1252", "ISO-8859-1"]

/-- The fixed delimiter candidate order. -/
def delimitersToTry : List String := [";", ",", "\t", "|"]

/-- A Papa.parse oracle: the outcome of one `(encoding, delimiter)` attempt on
the file's bytes; `none` is an attempt whose `error` callback fired (or that
threw), `some r` a completed parse. -/
abbrev PapaOracle := String → String → Option ParseResult

/-- One attempt of the grid: a completed parse whose `meta.fields` is empty is
rejected inside the `complete` callback ("Parsing produced no columns.") and
caught, so it behaves like a failed attempt. -/
def csvAttempt (papa : PapaOracle) (enc delim : String) : Option ParseResult :=
  match papa enc delim with
  | none => none
  | some r => if r.fields.length = 0 then none else some r

/-- One step of `bestOverallResult` selection: replace the current best only
when the new attempt found strictly more columns. -/
def csvPickStep (acc : Option (String × String × ParseResult))
    (x : String × String × ParseResult) : Option (String × String × ParseResult) :=
  match acc with
  | none => some x
  | some b => if x.2.2.fields.length > b.2.2.fields.length then some x else acc

/-- Source `parseCsvFile`: the nested encoding × delimiter loops, keeping the
attempt with the strictly greatest column count (ties keep the earlier one),
tagged with the encoding and delimiter that produced it; failure if no
combination is valid. -/
def parseCsvFile (fileName : String) (papa : PapaOracle) :
    Except String (String × String × ParseResult) :=
  let best := encodingsToTry.foldl
    (fun acc enc => delimitersToTry.foldl
      (fun acc delim =>
        match csvAttempt papa enc delim with
        | none => acc
        | some r => csvPickStep acc (enc, delim, r))
      acc)
    none
  match best with
  | some t => .ok t
  | none => .error ("Could not parse \"" ++ fileName ++
      "\" with common delimiters and encodings. The file may be valid, but its internal structure could not be determined or it might be in an unsupported format.")

/-- The grid of attempts in enumeration order (encoding-major). -/
def attemptGrid : List (String × String) :=
  encodingsToTry.flatMap fun enc => delimitersToTry.map fun delim => (enc, delim)

/-- The valid attempts of the grid, in enumeration order, tagged with their
encoding and delimiter. -/
def validAttempts (papa : PapaOracle) : List (String × String × ParseResult) :=
  attemptGrid.filterMap fun p => (csvAttempt papa p.1 p.2).map fun r => (p.1, p.2, r)

/- ## SpreadsheetExtractor (`parseExcelFile`, lines 75-121) -/

/-- One worksheet of a workbook, as the cell grid `sheet_to_json` walks: the
header-row texts and the data rows' cells (`none` = absent/empty cell). -/
structure Sheet where
  sheetName : String
  cols : List String
  rows : List (List (Option String))
deriving DecidableEq, Repr

/-- One output row of `XLSX.utils.sheet_to_json(sheet, {defval: null,
raw: false})`: keys are the header texts; a cell that is absent (row shorter
than the header row, or an empty cell) takes the default value `null`. -/
def sheetJsonRow : List String → List (Option String) → RawRow
  | [], _ => []
  | c :: cs, cells => (c, cells.head?.join) :: sheetJsonRow cs cells.tail

/-- Model of `XLSX.utils.sheet_to_json` with `defval: null, raw: false`. -/
def sheetToJson (s : Sheet) : List RawRow :=
  s.rows.map (sheetJsonRow s.cols)

/-- The per-row key trimming inside `parseExcelFile` (lines 93-101): rebuild
the object with every key trimmed (no blank-key filter here). -/
def excelTrimKeys (row : RawRow) : RawRow :=
  row.foldl (fun acc p => jsObjSet acc (jsTrim p.1) p.2) []

/-- The `ParseResult` built for one data-bearing sheet: fields are the first
row's keys trimmed, rows have their keys trimmed, `errors` is empty. -/
def excelSheetResult (jsonData : List RawRow) (firstRow : RawRow) : ParseResult :=
  { data := jsonData.map excelTrimKeys
    errors := []
    fields := (firstRow.map Prod.fst).map jsTrim }

/-- Source `parseExcelFile`: the workbook-open oracle either fails (rejected with a
message naming the file) or yields the sheets in workbook order; each sheet
with at least one data row contributes one `ParseResult`, empty sheets are
skipped.  The FileReader plumbing is absorbed into the oracle. -/
def parseExcelFile (fileName : String) (wb : Except String (List Sheet)) :
    Except String (List ParseResult) :=
  match wb with
  | .error msg => .error ("Failed to parse \"" ++ fileName ++
      "\". The file might be corrupted. Details: " ++ msg)
  | .ok sheets =>
    .ok <| sheets.foldl
      (fun results sheet =>
        let jsonData := sheetToJson sheet
        match jsonData with
        | [] => results
        | firstRow :: _ => results ++ [excelSheetResult jsonData firstRow])
      []

/- ## IngestionOrchestrator (`processFiles`, lines 215-295) -/

/-- One admitted file, with the outcome each parser would produce on it; the
orchestrator dispatches on the (lowercased) file name's extension, so only
one of the two oracles is ever consulted. -/
structure FileInput where
  name : String
  csvOutcome : Except String ParseResult
  excelOutcome : Except String (List ParseResult)
deriving Repr

/-- The notice text for one Papa row-level error. -/
def papaErrReason (e : PapaErr) : String :=
  "Line " ++ toString (e.row + 2) ++ ": " ++ e.message ++ " (Code: " ++ e.code ++ ")"

/-- The reason text for a CSV file with a header but no data rows. -/
def csvNoDataReason : String := "File contains no data rows and was skipped."

/-- The reason text for a workbook with no data-bearing sheet. -/
def excelNoDataReason : String := "File contains no sheets with data rows and was skipped."

/-- The `ParseResult`s one file adds to `allResults`. -/
def fileResults (f : FileInput) : List ParseResult :=
  if jsEndsWith (jsToLower f.name) ".csv" then
    match f.csvOutcome with
    | .error _ => []
    | .ok r => if r.data.length > 0 then [r] else []
  else if jsEndsWith (jsToLower f.name) ".xlsx" || jsEndsWith (jsToLower f.name) ".xls" then
    match f.excelOutcome with
    | .error _ => []
    | .ok sheetResults => if sheetResults.length > 0 then sheetResults else []
  else []

/-- The notices one file adds to `processingErrors`. -/
def fileNotices (f : FileInput) : List Notice :=
  if jsEndsWith (jsToLower f.name) ".csv" then
    match f.csvOutcome with
    | .error reason => [⟨f.name, reason⟩]
    | .ok r =>
      (r.errors.map fun e => (⟨f.name, papaErrReason e⟩ : Notice)) ++
        (if r.data.length > 0 then []
         else if r.errors.length = 0 then [⟨f.name, csvNoDataReason⟩]
         else [])
  else if jsEndsWith (jsToLower f.name) ".xlsx" || jsEndsWith (jsToLower f.name) ".xls" then
    match f.excelOutcome with
    | .error reason => [⟨f.name, reason⟩]
    | .ok sheetResults =>
      if sheetResults.length > 0 then [] else [⟨f.name, excelNoDataReason⟩]
  else []

/-- The per-file body of the orchestrator loop (lines 229-259): dispatch on
extension, catch any failure as a notice, accumulate results and notices. -/
def processFileStep (acc : List ParseResult × List Notice) (f : FileInput) :
    List ParseResult × List Notice :=
  if jsEndsWith (jsToLower f.name) ".csv" then
    match f.csvOutcome with
    | .error reason => (acc.1, acc.2 ++ [⟨f.name, reason⟩])
    | .ok r =>
      let errs := acc.2 ++ r.errors.map fun e => (⟨f.name, papaErrReason e⟩ : Notice)
      if r.data.length > 0 then (acc.1 ++ [r], errs)
      else if r.errors.length = 0 then (acc.1, errs ++ [⟨f.name, csvNoDataReason⟩])
      else (acc.1, errs)
  else if jsEndsWith (jsToLower f.name) ".xlsx" || jsEndsWith (jsToLower f.name) ".xls" then
    match f.excelOutcome with
    | .error reason => (acc.1, acc.2 ++ [⟨f.name, reason⟩])
    | .ok sheetResults =>
      if sheetResults.length > 0 then (acc.1 ++ sheetResults, acc.2)
      else (acc.1, acc.2 ++ [⟨f.name, excelNoDataReason⟩])
  else acc

/-- SchemaUnifier step 1: the insertion into `unifiedHeaderSet` for one field
name — skipped when the raw name is falsy (the empty string), otherwise the
trimmed name is added to the insertion-ordered set. -/
def headerFoldField (acc : List String) (field : String) : List String :=
  if field ≠ "" then jsSetAdd acc (jsTrim field) else acc

/-- Source `unifiedHeaders` construction (lines 266-272). -/
def unifiedHeadersOf (results : List ParseResult) : List String :=
  results.foldl (fun acc r => r.fields.foldl headerFoldField acc) []

/-- The key trimming of one source row in the consolidation loop
(lines 277-282): keys are trimmed and falsy (empty) keys are dropped. -/
def consTrimKeys (row : RawRow) : RawRow :=
  row.foldl (fun acc p => if p.1 ≠ "" then jsObjSet acc (jsTrim p.1) p.2 else acc) []

/-- One consolidated row (lines 284-287): every unified header, with the
trimmed-key source value when present and not `undefined`, else `null`. -/
def consolidateRow (headers : List String) (row : RawRow) : RawRow :=
  headers.map fun h => (h, ((consTrimKeys row).lookup h).join)

/-- The final result triple of `processFiles`. -/
structure ProcOutput where
  headers : List String
  data : List TypedRow
  errors : List Notice
deriving DecidableEq, Repr

/-- Source `processFiles` (lines 215-295): run every file through the loop, and
either report the global-empty outcome or consolidate, infer and convert.
The progress callback and the cosmetic 50 ms delay have no effect on the
returned value and are not modelled. -/
def processFiles (files : List FileInput) : ProcOutput :=
  let acc := files.foldl processFileStep ([], [])
  let allResults := acc.1
  let processingErrors := acc.2
  if allResults.length = 0 then ⟨[], [], processingErrors⟩
  else
    let unifiedHeaders := unifiedHeadersOf allResults
    let consolidatedData :=
      allResults.flatMap fun r => r.data.map (consolidateRow unifiedHeaders)
    ⟨unifiedHeaders, inferAndConvertTypes unifiedHeaders consolidatedData, processingErrors⟩

/- ## Spec-side definitions (written from the specification's words, for
comparison against the code-side definitions above) -/

/-- First-seen deduplication of a list of header names, the spec's reading of
"append any header not already present". -/
def firstSeenDedup (l : List String) : List String := l.foldl jsSetAdd []

/-- Whether a candidate type survives elimination over the sample: no
non-empty sampled value fails its recognizer (spec-side reading of the
elimination loop). -/
def survives (recog : String → Bool) (sample : List RawRow) (h : String) : Bool :=
  sample.all fun r => cellEmptyAt r h || recog (trimmedValAt r h)

/-- Whether a sampled row has a non-empty value for the column, in the spec's
sense: the key is present, its value is not null and not whitespace-only. -/
def specNonEmptyAt (r : RawRow) (h : String) : Bool :=
  match r.lookup h with
  | some (some s) => jsTrim s ≠ ""
  | _ => false

/-- Spec-side restatement of the classification rules: the highest-preference
surviving candidate among boolean, integer, number (in that order) with string
as fallback, boolean only if the sample has a non-empty value. -/
def specInferColumn (sample : List RawRow) (h : String) : ColType :=
  if survives isBooleanString sample h && (sample.any fun r => specNonEmptyAt r h) then
    .boolean
  else if survives isIntegerString sample h then .integer
  else if survives isNumberString sample h then .number
  else .string

/-- The selection score of an attempt: its detected column count. -/
def csvScore (t : String × String × ParseResult) : Nat := t.2.2.fields.length

/-- A concrete Papa oracle for the C3 witness: at UTF-8 the semicolon split
finds two columns, any comma split finds one, everything else fails. -/
def c3papa : PapaOracle := fun enc d =>
  if enc = "UTF-8" && d = ";" then some ⟨[[("p", some "1"), ("q", some "2")]], [], ["p", "q"]⟩
  else if d = "," then some ⟨[[("pq", some "1;2")]], [], ["pq"]⟩
  else none

/-- The parse results one sheet contributes: one result when it has a data
row, none otherwise. -/
def sheetResultsOf (s : Sheet) : List ParseResult :=
  match sheetToJson s with
  | [] => []
  | firstRow :: rest => [excelSheetResult (firstRow :: rest) firstRow]

/- ## Helper lemmas -/

theorem convertRow_fst (ts : List (String × ColType)) (r : RawRow) :
    (convertRow ts r).map Prod.fst = r.map Prod.fst := by
  simp [convertRow]

theorem inferAndConvertTypes_eq_map (hs : List String) (data : List RawRow) :
    inferAndConvertTypes hs data = data.map (convertRow (columnTypesOf hs data)) := by
  cases data <;> simp [inferAndConvertTypes]

theorem consolidateRow_fst (hs : List String) (row : RawRow) :
    (consolidateRow hs row).map Prod.fst = hs := by
  have hcomp : (Prod.fst ∘ fun h : String => (h, ((consTrimKeys row).lookup h).join)) = id := rfl
  rw [consolidateRow, List.map_map, hcomp, List.map_id]

theorem lookup_map_self (hs : List String) (f : String → α) (h : String)
    (hmem : h ∈ hs) : (hs.map fun x => (x, f x)).lookup h = some (f h) := by
  induction hs with
  | nil => cases hmem
  | cons a l ih =>
    rcases List.mem_cons.mp hmem with rfl | hl
    · simp [List.lookup]
    · by_cases hah : h = a
      · subst hah; simp [List.lookup]
      · have hba : (h == a) = false := beq_eq_false_iff_ne.mpr hah
        rw [List.map_cons, List.lookup, hba]
        exact ih hl

theorem consolidateRow_lookup (hs : List String) (row : RawRow) (h : String)
    (hmem : h ∈ hs) :
    (consolidateRow hs row).lookup h = some (((consTrimKeys row).lookup h).join) := by
  have := lookup_map_self hs (fun x => ((consTrimKeys row).lookup x).join) h hmem
  simpa [consolidateRow] using this

/- ## C10 -/

/-- C10: for every headers list and every input dataset, `inferAndConvertTypes`
returns a dataset with exactly the same number of rows in the same order, and
each output row has exactly the same (ordered) key list as the corresponding
input row; only cell values are changed. -/
theorem inferAndConvertTypes_frame (headers : List String) (data : List RawRow) :
    ((inferAndConvertTypes headers data).map fun r => r.map Prod.fst) =
      (data.map fun r => r.map Prod.fst) ∧
    (inferAndConvertTypes headers data).length = data.length := by
  rw [inferAndConvertTypes_eq_map]
  constructor
  · rw [List.map_map]
    exact List.map_congr_left fun r _ => convertRow_fst _ r
  · exact List.length_map _ _

/- ## C1 -/

/-- C1: every row returned by `processFiles` has key list exactly equal to the
returned headers list (no missing keys, no extra keys, in header order),
whichever source produced it; a header absent from a row's (trimmed-key)
source is filled with `null` at consolidation, and the conversion pass keeps
`null` as `null`. -/
theorem processFiles_rows_match_headers (files : List FileInput) :
    (∀ row ∈ (processFiles files).data,
        row.map Prod.fst = (processFiles files).headers) ∧
    (∀ hs row h, h ∈ hs → (consTrimKeys row).lookup h = none →
        (consolidateRow hs row).lookup h = some none) ∧
    (∀ ct : Option ColType, convertCell ct none = CellValue.null) := by
  refine ⟨?_, ?_, ?_⟩
  · intro row hrow
    unfold processFiles at hrow ⊢
    set acc := files.foldl processFileStep ([], []) with hacc
    by_cases hlen : acc.1.length = 0
    · simp only [hlen, if_pos rfl] at hrow
      cases hrow
    · simp only [hlen, if_neg hlen] at hrow ⊢
      rw [inferAndConvertTypes_eq_map] at hrow
      rcases List.mem_map.mp hrow with ⟨r0, hr0, rfl⟩
      rcases List.mem_flatMap.mp hr0 with ⟨res, _, hrow0⟩
      rcases List.mem_map.mp hrow0 with ⟨src, _, rfl⟩
      rw [convertRow_fst, consolidateRow_fst]
      simp
  · intro hs row h hmem hlook
    rw [consolidateRow_lookup hs row h hmem, hlook]
    rfl
  · intro ct; rfl

/-- Witness for C1 at a concrete batch: the single consolidated row of a
one-file batch carries exactly the unified headers as keys, and a header
missing from a row's source is filled with `null`. -/
theorem processFiles_rows_match_headers_witness :
    ([("a", CellValue.bool true), ("b", CellValue.null)] :
        TypedRow).map Prod.fst =
      (processFiles [⟨"w.csv", .ok ⟨[[("a", some "1")]], [], ["a", "b"]⟩, .error "-"⟩]).headers ∧
    (consolidateRow ["a", "b"] [("a", some "1")]).lookup "b" = some none := by
  constructor
  · exact (processFiles_rows_match_headers
      [⟨"w.csv", .ok ⟨[[("a", some "1")]], [], ["a", "b"]⟩, .error "-"⟩]).1
      [("a", CellValue.bool true), ("b", CellValue.null)] (by decide)
  · exact (processFiles_rows_match_headers []).2.1 ["a", "b"] [("a", some "1")] "b"
      (by decide) (by decide)

theorem foldl_headerFoldField (fs : List String) (acc : List String) :
    fs.foldl headerFoldField acc =
      ((fs.filter fun f => f ≠ "").map jsTrim).foldl jsSetAdd acc := by
  induction fs generalizing acc with
  | nil => rfl
  | cons f fs ih =>
    by_cases hf : f = ""
    · subst hf; simp [headerFoldField, ih]
    · simp [headerFoldField, hf, ih]

theorem foldl_nested_flatMap {α β γ : Type} (g : α → List β) (step : γ → β → γ) :
    ∀ (rs : List α) (acc : γ),
      rs.foldl (fun a r => (g r).foldl step a) acc = (rs.flatMap g).foldl step acc := by
  intro rs
  induction rs with
  | nil => intro acc; rfl
  | cons r rs ih =>
    intro acc
    rw [List.foldl_cons, ih, List.flatMap_cons, List.foldl_append]

theorem nodup_jsSetAdd (l : List String) (x : String) (h : l.Nodup) :
    (jsSetAdd l x).Nodup := by
  by_cases hx : x ∈ l
  · simpa [jsSetAdd, hx] using h
  · rw [jsSetAdd, if_neg hx]
    refine h.append (List.nodup_singleton x) ?_
    intro a ha hb
    rcases List.mem_singleton.mp hb with rfl
    exact hx ha

theorem nodup_foldl_jsSetAdd :
    ∀ (l : List String) (acc : List String), acc.Nodup → (l.foldl jsSetAdd acc).Nodup := by
  intro l
  induction l with
  | nil => intro acc h; exact h
  | cons x xs ih => intro acc h; exact ih _ (nodup_jsSetAdd acc x h)

/- ## C2 -/

/-- C2: for every accumulation of parse results, the unified headers list
contains no duplicate strings, and it is exactly the first-seen deduplication
of the trimmed field names walked over the results in processing order (each
result's fields in its own order, the names skipped by the builder — raw empty
names — excluded from the walk). -/
theorem unifiedHeaders_nodup_firstSeen (results : List ParseResult) :
    (unifiedHeadersOf results).Nodup ∧
    unifiedHeadersOf results =
      firstSeenDedup (((results.flatMap ParseResult.fields).filter fun f => f ≠ "").map jsTrim) := by
  have hflat : unifiedHeadersOf results =
      (results.flatMap ParseResult.fields).foldl headerFoldField [] :=
    foldl_nested_flatMap ParseResult.fields headerFoldField results []
  constructor
  · rw [hflat, foldl_headerFoldField]
    exact nodup_foldl_jsSetAdd _ _ List.nodup_nil
  · rw [hflat, foldl_headerFoldField]
    rfl

/- ## C9 (corrected) -/

theorem foldl_headerFoldField_filter (fs : List String) (acc : List String) :
    (fs.filter fun f => f ≠ "").foldl headerFoldField acc = fs.foldl headerFoldField acc := by
  induction fs generalizing acc with
  | nil => rfl
  | cons f fs ih =>
    by_cases hf : f = ""
    · subst hf
      have h1 : (("" :: fs).filter fun g => g ≠ "") = fs.filter fun g => g ≠ "" := by simp
      have h2 : headerFoldField acc "" = acc := rfl
      rw [h1, List.foldl_cons, h2]
      exact ih acc
    · have h1 : ((f :: fs).filter fun g => g ≠ "") = f :: fs.filter fun g => g ≠ "" := by
        simp [hf]
      rw [h1, List.foldl_cons, List.foldl_cons]
      exact ih _

/-- C9 counterexample: a result whose only field name is the whitespace-only
`" "` makes the unified headers `[""]`, not `[]` — the schema builder only
skips names that are the empty string before trimming, so a whitespace-only
name does contribute a header (the empty string), contradicting the claim. -/
theorem whitespace_field_name_cex :
    unifiedHeadersOf [⟨[], [], [" "]⟩] = [""] ∧
    unifiedHeadersOf [⟨[], [], [" "]⟩] ≠ [] := by decide

/-- C9 (amended): when building the unified schema, only field names equal to
the empty string are skipped and contribute no header; any other name —
including whitespace-only names — is trimmed and inserted, so a
whitespace-only name contributes the empty-string header. -/
theorem header_skip_amended :
    (∀ acc : List String, headerFoldField acc "" = acc) ∧
    (∀ results : List ParseResult,
        unifiedHeadersOf
            (results.map fun r => ⟨r.data, r.errors, r.fields.filter fun f => f ≠ ""⟩) =
          unifiedHeadersOf results) ∧
    (∀ (acc : List String) (f : String), f ≠ "" →
        headerFoldField acc f = jsSetAdd acc (jsTrim f)) := by
  refine ⟨fun acc => rfl, ?_, ?_⟩
  · intro results
    suffices h : ∀ (rs : List ParseResult) (acc : List String),
        (rs.map fun r =>
            (⟨r.data, r.errors, r.fields.filter fun f => f ≠ ""⟩ : ParseResult)).foldl
          (fun a r => r.fields.foldl headerFoldField a) acc =
        rs.foldl (fun a r => r.fields.foldl headerFoldField a) acc from h results []
    intro rs
    induction rs with
    | nil => intro acc; rfl
    | cons r rs ih =>
      intro acc
      rw [List.map_cons, List.foldl_cons, List.foldl_cons]
      dsimp only
      rw [foldl_headerFoldField_filter, ih]
  · intro acc f hf
    simp [headerFoldField, hf]

/-- Witness for the amended C9 at a concrete whitespace-only name. -/
theorem header_skip_amended_witness :
    headerFoldField ["a"] " x " = jsSetAdd ["a"] (jsTrim " x ") :=
  header_skip_amended.2.2 ["a"] " x " (by decide)

/- ## C6 -/

theorem processFileStep_decomp (rs : List ParseResult) (es : List Notice) (f : FileInput) :
    processFileStep (rs, es) f = (rs ++ fileResults f, es ++ fileNotices f) := by
  rcases f with ⟨name, co, eo⟩
  by_cases hc : jsEndsWith (jsToLower name) ".csv" = true
  · cases co with
    | error reason => simp [processFileStep, fileResults, fileNotices, hc]
    | ok r =>
      simp only [processFileStep, fileResults, fileNotices, hc, if_pos]
      split_ifs <;> simp
  · by_cases he : (jsEndsWith (jsToLower name) ".xlsx" || jsEndsWith (jsToLower name) ".xls") = true
    · cases eo with
      | error reason => simp [processFileStep, fileResults, fileNotices, hc, he]
      | ok sheetResults =>
        simp only [processFileStep, fileResults, fileNotices, hc, he, if_pos, if_neg,
          Bool.not_eq_true]
        split_ifs <;> simp
    · simp [processFileStep, fileResults, fileNotices, hc, he]

theorem processFiles_acc (files : List FileInput) :
    ∀ (rs : List ParseResult) (es : List Notice),
      files.foldl processFileStep (rs, es) =
        (rs ++ files.flatMap fileResults, es ++ files.flatMap fileNotices) := by
  induction files with
  | nil => intro rs es; simp
  | cons f fs ih =>
    intro rs es
    rw [List.foldl_cons, processFileStep_decomp, ih]
    simp

theorem flatMap_nil_of_all_nil {α β : Type} (l : List α) (g : α → List β)
    (h : ∀ x ∈ l, g x = []) : l.flatMap g = [] := by
  induction l with
  | nil => rfl
  | cons x xs ih =>
    rw [List.flatMap_cons, h x (List.mem_cons_self x xs), List.nil_append]
    exact ih fun y hy => h y (List.mem_cons_of_mem x hy)

theorem flatMap_length_of_all_one {α β : Type} (l : List α) (g : α → List β)
    (h : ∀ x ∈ l, (g x).length = 1) : (l.flatMap g).length = l.length := by
  induction l with
  | nil => rfl
  | cons x xs ih =>
    rw [List.flatMap_cons, List.length_append, h x (List.mem_cons_self x xs),
      ih fun y hy => h y (List.mem_cons_of_mem x hy), List.length_cons, Nat.add_comm]

/-- C6: the orchestrator processes every file to a terminal state and returns
normally: the loop's accumulators are the per-file contributions concatenated
in input order, so no file's failure prevents later files from contributing; a
parser failure on a `.csv` or `.xlsx`/`.xls` file becomes exactly one
`{fileName, reason}` notice and no results; and when no file contributed any
`ParseResult`, the output is empty headers, empty data and all collected
notices — one per file when every file failed. -/
theorem processFiles_isolates_failures :
    (∀ files : List FileInput,
        files.foldl processFileStep ([], []) =
          (files.flatMap fileResults, files.flatMap fileNotices)) ∧
    (∀ files : List FileInput, files.flatMap fileResults = [] →
        processFiles files = ⟨[], [], files.flatMap fileNotices⟩) ∧
    (∀ (f : FileInput) (reason : String),
        jsEndsWith (jsToLower f.name) ".csv" = true →
        f.csvOutcome = .error reason →
        fileResults f = [] ∧ fileNotices f = [⟨f.name, reason⟩]) ∧
    (∀ (f : FileInput) (reason : String),
        jsEndsWith (jsToLower f.name) ".csv" = false →
        (jsEndsWith (jsToLower f.name) ".xlsx" || jsEndsWith (jsToLower f.name) ".xls") = true →
        f.excelOutcome = .error reason →
        fileResults f = [] ∧ fileNotices f = [⟨f.name, reason⟩]) ∧
    (∀ files : List FileInput,
        (∀ f ∈ files, fileResults f = []) → (∀ f ∈ files, (fileNotices f).length = 1) →
        processFiles files = ⟨[], [], files.flatMap fileNotices⟩ ∧
        (files.flatMap fileNotices).length = files.length) := by
  have hacc : ∀ files : List FileInput,
      files.foldl processFileStep ([], []) =
        (files.flatMap fileResults, files.flatMap fileNotices) := by
    intro files
    rw [processFiles_acc files [] []]
    simp
  have hmain : ∀ files : List FileInput, files.flatMap fileResults = [] →
      processFiles files = ⟨[], [], files.flatMap fileNotices⟩ := by
    intro files hempty
    unfold processFiles
    rw [hacc files, hempty]
    rfl
  refine ⟨hacc, hmain, ?_, ?_, ?_⟩
  · intro f reason hc hco
    rcases f with ⟨name, co, eo⟩
    cases hco
    simp [fileResults, fileNotices, hc]
  · intro f reason hc he heo
    rcases f with ⟨name, co, eo⟩
    cases heo
    simp [fileResults, fileNotices, hc, he]
  · intro files hres hnot
    refine ⟨hmain files (flatMap_nil_of_all_nil files fileResults hres), ?_⟩
    exact flatMap_length_of_all_one files fileNotices hnot

/-- Witness for C6 at a concrete two-file batch where both files fail. -/
theorem processFiles_isolates_failures_witness :
    fileResults (⟨"x.csv", .error "boom", .error "-"⟩ : FileInput) = [] ∧
    fileNotices (⟨"x.csv", .error "boom", .error "-"⟩ : FileInput) = [⟨"x.csv", "boom"⟩] ∧
    processFiles [⟨"x.csv", .error "boom", .error "-"⟩, ⟨"y.xls", .error "-", .error "bad"⟩] =
      ⟨[], [], [⟨"x.csv", "boom"⟩, ⟨"y.xls", "bad"⟩]⟩ := by
  refine ⟨(processFiles_isolates_failures.2.2.1 _ "boom" (by decide) rfl).1,
    (processFiles_isolates_failures.2.2.1 _ "boom" (by decide) rfl).2, ?_⟩
  exact (processFiles_isolates_failures.2.1 _ (by decide)).trans (by decide)

/- ## C8 (corrected) -/

/-- C8 counterexample: a CSV source whose selected parse has one header field,
zero data rows and one row-level diagnostic.  The code records the line
diagnostic and no EmptyResult ("no data rows") notice, so the claim's
unconditional "an EmptyResult notice is recorded" is false (while the file
indeed contributes no headers and no rows). -/
theorem csv_empty_with_errors_cex :
    (processFiles [⟨"f.csv", .ok ⟨[], [⟨"X", "bad", 0⟩], ["a"]⟩, .error "-"⟩]) =
      ⟨[], [], [⟨"f.csv", "Line 2: bad (Code: X)"⟩]⟩ ∧
    ((processFiles [⟨"f.csv", .ok ⟨[], [⟨"X", "bad", 0⟩], ["a"]⟩, .error "-"⟩]).errors.all
      fun n => n.reason ≠ csvNoDataReason) = true := by decide

/-- C8 (amended): a text source whose selected parse has a header row but zero
data rows contributes nothing to the unified headers or the output rows; the
EmptyResult notice naming the file is recorded when the selected parse
reported no row-level errors, otherwise the row-level diagnostics are recorded
instead. -/
theorem csv_empty_notice_amended :
    ∀ (f : FileInput) (r : ParseResult),
      jsEndsWith (jsToLower f.name) ".csv" = true →
      f.csvOutcome = .ok r → r.data = [] →
      fileResults f = [] ∧
      (r.errors = [] → fileNotices f = [⟨f.name, csvNoDataReason⟩]) ∧
      (r.errors ≠ [] → fileNotices f = r.errors.map fun e => ⟨f.name, papaErrReason e⟩) := by
  intro f r hc hco hdata
  rcases f with ⟨name, co, eo⟩
  cases hco
  refine ⟨?_, ?_, ?_⟩
  · simp [fileResults, hc, hdata]
  · intro herr; simp [fileNotices, hc, hdata, herr]
  · intro herr
    simp [fileNotices, hc, hdata, herr, List.length_eq_zero]

/-- Witness for the amended C8 at concrete empty CSV parses, with and without
row-level diagnostics. -/
theorem csv_empty_notice_amended_witness :
    fileResults (⟨"e.csv", .ok ⟨[], [], ["a"]⟩, .error "-"⟩ : FileInput) = [] ∧
    fileNotices (⟨"e.csv", .ok ⟨[], [], ["a"]⟩, .error "-"⟩ : FileInput) =
      [⟨"e.csv", csvNoDataReason⟩] ∧
    fileNotices (⟨"g.csv", .ok ⟨[], [⟨"X", "bad", 0⟩], ["a"]⟩, .error "-"⟩ : FileInput) =
      [⟨"g.csv", "Line 2: bad (Code: X)"⟩] := by
  refine ⟨(csv_empty_notice_amended _ ⟨[], [], ["a"]⟩ (by decide) rfl rfl).1,
    (csv_empty_notice_amended _ ⟨[], [], ["a"]⟩ (by decide) rfl rfl).2.1 rfl, ?_⟩
  have h := (csv_empty_notice_amended ⟨"g.csv", .ok ⟨[], [⟨"X", "bad", 0⟩], ["a"]⟩, .error "-"⟩
    ⟨[], [⟨"X", "bad", 0⟩], ["a"]⟩ (by decide) rfl rfl).2.2 (by decide)
  exact h.trans (by decide)

/- ## C4 -/


theorem elimFlags_eq (h : String) :
    ∀ (sample : List RawRow) (b i n : Bool),
      elimFlags h sample (b, i, n) =
        (b && survives isBooleanString sample h,
         i && survives isIntegerString sample h,
         n && survives isNumberString sample h) := by
  intro sample
  induction sample with
  | nil => intro b i n; simp [elimFlags, survives]
  | cons r rs ih =>
    intro b i n
    cases hemp : cellEmptyAt r h with
    | true =>
      have hsurv : ∀ recog : String → Bool,
          survives recog (r :: rs) h = survives recog rs h := by
        intro recog; simp [survives, List.all_cons, hemp]
      simp only [elimFlags, hemp, if_true, hsurv]
      exact ih b i n
    | false =>
      have hsurv : ∀ recog : String → Bool,
          survives recog (r :: rs) h = (recog (trimmedValAt r h) && survives recog rs h) := by
        intro recog; simp [survives, List.all_cons, hemp]
      simp only [elimFlags, hemp, hsurv, Bool.false_eq_true, if_false]
      split
      next hbrk =>
        revert hbrk
        cases hB : isBooleanString (trimmedValAt r h) <;>
          cases hI : isIntegerString (trimmedValAt r h) <;>
            cases hN : isNumberString (trimmedValAt r h) <;>
              cases b <;> cases i <;> cases n <;> simp
      next hbrk =>
        rw [ih]
        simp [Bool.and_assoc]

theorem sampleHasNonEmpty_eq (sample : List RawRow) (h : String)
    (hall : ∀ r ∈ sample, (r.lookup h).isSome) :
    sampleHasNonEmpty sample h = sample.any fun r => specNonEmptyAt r h := by
  induction sample with
  | nil => rfl
  | cons r rs ih =>
    have hr := hall r (List.mem_cons_self r rs)
    have hrs : ∀ x ∈ rs, (x.lookup h).isSome := fun x hx => hall x (List.mem_cons_of_mem r hx)
    have htail : sampleHasNonEmpty rs h = rs.any fun x => specNonEmptyAt x h := ih hrs
    cases hl : r.lookup h with
    | none => rw [hl] at hr; cases hr
    | some v =>
      cases v with
      | none =>
        simp only [sampleHasNonEmpty, List.any_cons, specNonEmptyAt, hl] at htail ⊢
        exact htail
      | some s =>
        simp only [sampleHasNonEmpty, List.any_cons, specNonEmptyAt, hl] at htail ⊢
        rw [htail]

/-- C4: column classification is decided from at most the first 500 rows;
blank/null/whitespace-only sampled cells never eliminate any candidate; over a
sample in which the column's key is present in every row (as it is for every
consolidated dataset), the inferred type is exactly the spec's monotonic
elimination over boolean, integer, number in preference order with string as
fallback, and boolean is chosen only when the sample contains at least one
non-empty value for the column. -/
theorem inferColumn_monotonic_elimination :
    (∀ (headers : List String) (d1 d2 : List RawRow), d1.take 500 = d2.take 500 →
        columnTypesOf headers d1 = columnTypesOf headers d2) ∧
    (∀ (h : String) (r : RawRow) (rs : List RawRow) (f : Bool × Bool × Bool),
        cellEmptyAt r h = true → elimFlags h (r :: rs) f = elimFlags h rs f) ∧
    (∀ (sample : List RawRow) (h : String), (∀ r ∈ sample, (r.lookup h).isSome) →
        inferColumn sample h = specInferColumn sample h) ∧
    (∀ (sample : List RawRow) (h : String), (∀ r ∈ sample, (r.lookup h).isSome) →
        inferColumn sample h = ColType.boolean →
        (sample.any fun r => specNonEmptyAt r h) = true) := by
  have hspec : ∀ (sample : List RawRow) (h : String), (∀ r ∈ sample, (r.lookup h).isSome) →
      inferColumn sample h = specInferColumn sample h := by
    intro sample h hall
    rw [inferColumn, elimFlags_eq h sample true true true]
    simp only [Bool.true_and]
    rw [specInferColumn, sampleHasNonEmpty_eq sample h hall]
  refine ⟨?_, ?_, hspec, ?_⟩
  · intro headers d1 d2 htake
    rw [columnTypesOf, columnTypesOf, htake]
  · intro h r rs f hemp
    rcases f with ⟨b, i, n⟩
    simp [elimFlags, hemp]
  · intro sample h hall hbool
    rw [hspec sample h hall] at hbool
    rw [specInferColumn] at hbool
    by_cases hany : (sample.any fun r => specNonEmptyAt r h) = true
    · exact hany
    · exfalso
      simp only [hany, Bool.and_false, Bool.false_eq_true, if_false] at hbool
      split_ifs at hbool

/-- Witness for C4 at concrete samples: a one-row yes sample classifies
boolean and agrees with the spec-side classifier; an all-empty column is not
typed boolean; blank cells do not change the elimination state. -/
theorem inferColumn_monotonic_elimination_witness :
    inferColumn [[("c", some "yes")]] "c" = specInferColumn [[("c", some "yes")]] "c" ∧
    ([[("c", some "yes")]].any fun r => specNonEmptyAt r "c") = true ∧
    inferColumn [[("c", some "")], [("c", none)]] "c" = specInferColumn [[("c", some "")], [("c", none)]] "c" ∧
    elimFlags "c" [[("c", none)], [("c", some "5")]] (true, true, true) =
      elimFlags "c" [[("c", some "5")]] (true, true, true) ∧
    columnTypesOf ["c"] [[("c", some "yes")]] = columnTypesOf ["c"] [[("c", some "yes")]] := by
  refine ⟨inferColumn_monotonic_elimination.2.2.1 _ "c" (by decide),
    inferColumn_monotonic_elimination.2.2.2 _ "c" (by decide) (by decide),
    inferColumn_monotonic_elimination.2.2.1 _ "c" (by decide),
    inferColumn_monotonic_elimination.2.1 "c" [("c", none)] [[("c", some "5")]] (true, true, true)
      (by decide),
    inferColumn_monotonic_elimination.1 ["c"] _ _ rfl⟩

/- ## C5 -/

/-- C5: the conversion pass runs over the entire dataset (every row is mapped
through the per-cell conversion, not only the sampled rows); a null or
whitespace-only cell becomes `null`; a non-blank cell is converted to the
column's type only when its own trimmed value matches that type's recognizer
and is otherwise left as its original value; boolean conversion maps the
case-insensitive tokens true/yes/1 to `true` and the other recognized tokens
(false/no/0) to `false`; and a column sampled as all Yes/No is typed boolean
with Yes → true, No → false and blank → null. -/
theorem conversion_pass_cellwise :
    (∀ (headers : List String) (data : List RawRow),
        inferAndConvertTypes headers data = data.map (convertRow (columnTypesOf headers data))) ∧
    (∀ ct : Option ColType, convertCell ct none = CellValue.null) ∧
    (∀ (ct : Option ColType) (s : String), jsTrim s = "" →
        convertCell ct (some s) = CellValue.null) ∧
    (∀ s : String, jsTrim s ≠ "" →
        convertCell (some ColType.boolean) (some s) =
          (if isBooleanString (jsTrim s) then CellValue.bool (toBoolean (jsTrim s))
           else CellValue.str s) ∧
        convertCell (some ColType.integer) (some s) =
          (if isIntegerString (jsTrim s) then CellValue.int (jsParseIntDec (jsTrim s))
           else CellValue.str s) ∧
        convertCell (some ColType.number) (some s) =
          (if isNumberString (jsTrim s) then CellValue.num (jsParseFloatQ (jsTrim s))
           else CellValue.str s) ∧
        convertCell (some ColType.string) (some s) = CellValue.str s) ∧
    (∀ s : String, toBoolean s =
        (jsToLower s = "true" || jsToLower s = "yes" || jsToLower s = "1")) ∧
    (∀ s : String, isBooleanString s = true → toBoolean s = false →
        jsToLower s = "false" ∨ jsToLower s = "no" ∨ jsToLower s = "0") ∧
    (inferAndConvertTypes ["c"] [[("c", some "Yes")], [("c", some "No")], [("c", some "")]] =
      [[("c", CellValue.bool true)], [("c", CellValue.bool false)], [("c", CellValue.null)]]) := by
  refine ⟨inferAndConvertTypes_eq_map, fun ct => rfl, ?_, ?_, fun s => rfl, ?_, by decide⟩
  · intro ct s hs
    cases ct with
    | none => simp [convertCell, hs]
    | some t => cases t <;> simp [convertCell, hs]
  · intro s hs
    refine ⟨?_, ?_, ?_, ?_⟩ <;> simp [convertCell, hs]
  · intro s hb htb
    have hb2 : (jsToLower s = "true" || jsToLower s = "false" || jsToLower s = "yes" ||
        jsToLower s = "no" || jsToLower s = "1" || jsToLower s = "0") = true := hb
    have htb2 : (jsToLower s = "true" || jsToLower s = "yes" || jsToLower s = "1") = false := htb
    simp at hb2 htb2
    tauto

/-- Witness for C5 at concrete cells: a padded Yes in a boolean column
converts to `true`; a whitespace-only cell in an integer column becomes
`null`; No is a recognized token mapping to `false`. -/
theorem conversion_pass_cellwise_witness :
    convertCell (some ColType.boolean) (some " Yes ") = CellValue.bool true ∧
    convertCell (some ColType.integer) (some "   ") = CellValue.null ∧
    (jsToLower "No" = "false" ∨ jsToLower "No" = "no" ∨ jsToLower "No" = "0") := by
  refine ⟨((conversion_pass_cellwise.2.2.2.1 " Yes " (by decide)).1).trans (by decide),
    conversion_pass_cellwise.2.2.1 (some ColType.integer) "   " (by decide),
    conversion_pass_cellwise.2.2.2.2.2.1 "No" (by decide) (by decide)⟩

/- ## C3 -/


theorem foldl_csvPick_filterMap (papa : PapaOracle) :
    ∀ (ps : List (String × String)) (acc : Option (String × String × ParseResult)),
      ps.foldl (fun a p =>
          match csvAttempt papa p.1 p.2 with
          | none => a
          | some r => csvPickStep a (p.1, p.2, r)) acc =
        (ps.filterMap fun p => (csvAttempt papa p.1 p.2).map fun r => (p.1, p.2, r)).foldl
          csvPickStep acc := by
  intro ps
  induction ps with
  | nil => intro acc; rfl
  | cons p ps ih =>
    intro acc
    rw [List.foldl_cons, List.filterMap_cons]
    cases hc : csvAttempt papa p.1 p.2 with
    | none => simp only [hc, Option.map_none']; exact ih acc
    | some r => simp only [hc, Option.map_some', List.foldl_cons]; exact ih _

theorem csv_best_eq (papa : PapaOracle) :
    encodingsToTry.foldl
        (fun acc enc => delimitersToTry.foldl
          (fun acc delim =>
            match csvAttempt papa enc delim with
            | none => acc
            | some r => csvPickStep acc (enc, delim, r))
          acc)
        none =
      (validAttempts papa).foldl csvPickStep none := by
  have h1 : ∀ (enc : String) (acc : Option (String × String × ParseResult)),
      delimitersToTry.foldl
          (fun a delim =>
            match csvAttempt papa enc delim with
            | none => a
            | some r => csvPickStep a (enc, delim, r))
          acc =
        ((delimitersToTry.map fun d => (enc, d)).foldl
          (fun a p =>
            match csvAttempt papa p.1 p.2 with
            | none => a
            | some r => csvPickStep a (p.1, p.2, r))
          acc) := by
    intro enc acc
    rw [List.foldl_map]
  simp only [h1]
  rw [foldl_nested_flatMap (fun enc => delimitersToTry.map fun d => (enc, d))
    (fun a p =>
      match csvAttempt papa p.1 p.2 with
      | none => a
      | some r => csvPickStep a (p.1, p.2, r)) encodingsToTry none]
  exact foldl_csvPick_filterMap papa attemptGrid none

theorem csvPick_go_spec :
    ∀ (l : List (String × String × ParseResult)) (b c : String × String × ParseResult),
      l.foldl csvPickStep (some b) = some c →
      ∃ l₁ l₂, b :: l = l₁ ++ c :: l₂ ∧ (∀ y ∈ l₁, csvScore y < csvScore c) ∧
        ∀ y ∈ l₂, csvScore y ≤ csvScore c := by
  intro l
  induction l with
  | nil =>
    intro b c hc
    cases hc
    exact ⟨[], [], rfl, by simp, by simp⟩
  | cons x xs ih =>
    intro b c hc
    rw [List.foldl_cons] at hc
    by_cases hgt : x.2.2.fields.length > b.2.2.fields.length
    · have hstep : csvPickStep (some b) x = some x := by
        simp only [csvPickStep, if_pos hgt]
      rw [hstep] at hc
      obtain ⟨l₁, l₂, hdec, hlt, hle⟩ := ih x c hc
      have hbc : csvScore b < csvScore c := by
        cases l₁ with
        | nil =>
          obtain ⟨rfl, -⟩ : x = c ∧ xs = l₂ := by
            rw [List.nil_append] at hdec
            exact ⟨(List.cons.injEq .. ▸ hdec).1, (List.cons.injEq .. ▸ hdec).2⟩
          exact hgt
        | cons a l₁' =>
          have hxa : x = a := by
            rw [List.cons_append] at hdec
            exact (List.cons.injEq .. ▸ hdec).1
          exact lt_trans hgt (hxa ▸ hlt a (List.mem_cons_self a l₁'))
      refine ⟨b :: l₁, l₂, ?_, ?_, hle⟩
      · rw [List.cons_append, ← hdec]
      · intro y hy
        rcases List.mem_cons.mp hy with rfl | hyl
        · exact hbc
        · exact hlt y hyl
    · have hstep : csvPickStep (some b) x = some b := by
        simp only [csvPickStep, if_neg hgt]
      rw [hstep] at hc
      obtain ⟨l₁, l₂, hdec, hlt, hle⟩ := ih b c hc
      cases l₁ with
      | nil =>
        obtain ⟨rfl, rfl⟩ : b = c ∧ xs = l₂ := by
          rw [List.nil_append] at hdec
          exact ⟨(List.cons.injEq .. ▸ hdec).1, (List.cons.injEq .. ▸ hdec).2⟩
        refine ⟨[], x :: xs, rfl, by simp, ?_⟩
        intro y hy
        rcases List.mem_cons.mp hy with rfl | hyl
        · exact Nat.le_of_not_lt hgt
        · exact hle y hyl
      | cons a l₁' =>
        have hba : b = a := by
          rw [List.cons_append] at hdec
          exact (List.cons.injEq .. ▸ hdec).1
        have hxs : xs = l₁' ++ c :: l₂ := by
          rw [List.cons_append] at hdec
          exact (List.cons.injEq .. ▸ hdec).2
        subst hba
        have hbc : csvScore b < csvScore c := hlt b (List.mem_cons_self b l₁')
        refine ⟨b :: x :: l₁', l₂, ?_, ?_, hle⟩
        · rw [List.cons_append, List.cons_append, hxs]
        · intro y hy
          rcases List.mem_cons.mp hy with rfl | hy2
          · exact hbc
          · rcases List.mem_cons.mp hy2 with rfl | hy3
            · exact lt_of_le_of_lt (Nat.le_of_not_lt hgt) hbc
            · exact hlt y (List.mem_cons_of_mem b hy3)

theorem csvPick_go_isSome :
    ∀ (l : List (String × String × ParseResult)) (b : String × String × ParseResult),
      ∃ c, l.foldl csvPickStep (some b) = some c := by
  intro l
  induction l with
  | nil => intro b; exact ⟨b, rfl⟩
  | cons x xs ih =>
    intro b
    rw [List.foldl_cons]
    by_cases hgt : x.2.2.fields.length > b.2.2.fields.length
    · rw [show csvPickStep (some b) x = some x from by simp only [csvPickStep, if_pos hgt]]
      exact ih x
    · rw [show csvPickStep (some b) x = some b from by simp only [csvPickStep, if_neg hgt]]
      exact ih b

theorem csvPick_spec (l : List (String × String × ParseResult))
    (c : String × String × ParseResult) (hc : l.foldl csvPickStep none = some c) :
    ∃ l₁ l₂, l = l₁ ++ c :: l₂ ∧ (∀ y ∈ l₁, csvScore y < csvScore c) ∧
      ∀ y ∈ l₂, csvScore y ≤ csvScore c := by
  cases l with
  | nil => cases hc
  | cons x xs =>
    rw [List.foldl_cons] at hc
    exact csvPick_go_spec xs x c hc

theorem csvPick_le_of_mem (l : List (String × String × ParseResult))
    (c : String × String × ParseResult) (hc : l.foldl csvPickStep none = some c) :
    ∀ y ∈ l, csvScore y ≤ csvScore c := by
  obtain ⟨l₁, l₂, rfl, hlt, hle⟩ := csvPick_spec l c hc
  intro y hy
  rcases List.mem_append.mp hy with hy1 | hy2
  · exact Nat.le_of_lt (hlt y hy1)
  · rcases List.mem_cons.mp hy2 with rfl | hy3
    · exact Nat.le_refl _
    · exact hle y hy3

/-- C3: the delimiter/encoding discovery enumerates the grid in the fixed
encoding-major order (UTF-8, windows-1252, ISO-8859-1; per encoding semicolon,
comma, tab, pipe); a completed attempt detecting zero header columns is
discarded; whenever at least one attempt is valid the parse succeeds, and the
selected attempt is a valid one whose column count strictly exceeds every
earlier valid attempt's and is at least every later valid attempt's (i.e. the
first attempt attaining the maximum); in particular a semicolon attempt with
strictly more columns than the comma attempt at the same encoding is never
beaten by that comma attempt. -/
theorem parseCsvFile_first_max_selection :
    (attemptGrid =
      [("UTF-8", ";"), ("UTF-8", ","), ("UTF-8", "\t"), ("UTF-8", "|"),
       ("windows-1252", ";"), ("windows-1252", ","), ("windows-1252", "\t"), ("windows-1252", "|"),
       ("ISO-8859-1", ";"), ("ISO-8859-1", ","), ("ISO-8859-1", "\t"), ("ISO-8859-1", "|")]) ∧
    (∀ (papa : PapaOracle) (enc delim : String) (r : ParseResult),
        papa enc delim = some r → r.fields = [] → csvAttempt papa enc delim = none) ∧
    (∀ (name : String) (papa : PapaOracle) (sel : String × String × ParseResult),
        parseCsvFile name papa = .ok sel →
        ∃ l₁ l₂, validAttempts papa = l₁ ++ sel :: l₂ ∧
          (∀ y ∈ l₁, csvScore y < csvScore sel) ∧ ∀ y ∈ l₂, csvScore y ≤ csvScore sel) ∧
    (∀ (name : String) (papa : PapaOracle), validAttempts papa ≠ [] →
        ∃ sel, parseCsvFile name papa = .ok sel) ∧
    (∀ (name : String) (papa : PapaOracle) (enc : String) (r1 r2 : ParseResult)
        (sel : String × String × ParseResult),
        enc ∈ encodingsToTry →
        csvAttempt papa enc ";" = some r1 → csvAttempt papa enc "," = some r2 →
        r2.fields.length < r1.fields.length →
        parseCsvFile name papa = .ok sel → sel ≠ (enc, ",", r2)) := by
  have hok_best : ∀ (name : String) (papa : PapaOracle) (sel : String × String × ParseResult),
      parseCsvFile name papa = .ok sel →
      (validAttempts papa).foldl csvPickStep none = some sel := by
    intro name papa sel hok
    unfold parseCsvFile at hok
    rw [csv_best_eq papa] at hok
    cases hfb : (validAttempts papa).foldl csvPickStep none with
    | none => rw [hfb] at hok; cases hok
    | some t =>
      rw [hfb] at hok
      cases hok
      rfl
  refine ⟨by decide, ?_, ?_, ?_, ?_⟩
  · intro papa enc delim r hp hf
    simp [csvAttempt, hp, hf]
  · intro name papa sel hok
    exact csvPick_spec _ sel (hok_best name papa sel hok)
  · intro name papa hne
    cases hl : validAttempts papa with
    | nil => exact absurd hl hne
    | cons x xs =>
      unfold parseCsvFile
      rw [csv_best_eq papa, hl, List.foldl_cons]
      obtain ⟨c, hc⟩ := csvPick_go_isSome xs x
      rw [show csvPickStep none x = some x from rfl, hc]
      exact ⟨c, rfl⟩
  · intro name papa enc r1 r2 sel henc h1 h2 hlt hok
    have hbest := hok_best name papa sel hok
    have hmem : (enc, ";", r1) ∈ validAttempts papa := by
      rw [validAttempts]
      refine List.mem_filterMap.mpr ⟨(enc, ";"), ?_, ?_⟩
      · rw [attemptGrid]
        exact List.mem_flatMap.mpr ⟨enc, henc, List.mem_map.mpr ⟨";", by decide, rfl⟩⟩
      · rw [h1]; rfl
    have hle := csvPick_le_of_mem _ sel hbest (enc, ";", r1) hmem
    intro hcomma
    rw [hcomma] at hle
    exact absurd (lt_of_lt_of_le hlt (le_trans hle (le_refl _))) (by
      exact Nat.lt_irrefl _)


/-- Witness for C3 at a concrete oracle: the UTF-8 semicolon attempt with two
columns is selected over the one-column comma attempts. -/
theorem parseCsvFile_first_max_selection_witness :
    csvAttempt (fun _ _ => some ⟨[], [], []⟩) "UTF-8" ";" = none ∧
    (∃ sel, parseCsvFile "t.csv" c3papa = .ok sel) ∧
    ("UTF-8", ";", (⟨[[("p", some "1"), ("q", some "2")]], [], ["p", "q"]⟩ : ParseResult)) ≠
      ("UTF-8", ",", (⟨[[("pq", some "1;2")]], [], ["pq"]⟩ : ParseResult)) := by
  refine ⟨parseCsvFile_first_max_selection.2.1 (fun _ _ => some ⟨[], [], []⟩) "UTF-8" ";"
      ⟨[], [], []⟩ rfl rfl,
    parseCsvFile_first_max_selection.2.2.2.1 "t.csv" c3papa (by decide), ?_⟩
  exact parseCsvFile_first_max_selection.2.2.2.2 "t.csv" c3papa "UTF-8"
    ⟨[[("p", some "1"), ("q", some "2")]], [], ["p", "q"]⟩
    ⟨[[("pq", some "1;2")]], [], ["pq"]⟩
    ("UTF-8", ";", ⟨[[("p", some "1"), ("q", some "2")]], [], ["p", "q"]⟩)
    (by decide) (by decide) (by decide) (by decide) (by rfl)

/- ## C7 -/


theorem parseExcelFile_ok_eq (name : String) (sheets : List Sheet) :
    parseExcelFile name (.ok sheets) = .ok (sheets.flatMap sheetResultsOf) := by
  unfold parseExcelFile
  suffices h : ∀ (ss : List Sheet) (acc : List ParseResult),
      ss.foldl (fun results sheet =>
        match sheetToJson sheet with
        | [] => results
        | firstRow :: _ => results ++ [excelSheetResult (sheetToJson sheet) firstRow]) acc =
      acc ++ ss.flatMap sheetResultsOf by
    simpa using h sheets []
  intro ss
  induction ss with
  | nil => intro acc; simp
  | cons s ss ih =>
    intro acc
    rw [List.foldl_cons, List.flatMap_cons]
    cases hj : sheetToJson s with
    | nil =>
      have hres : sheetResultsOf s = [] := by rw [sheetResultsOf, hj]
      simp only [hj, hres, List.nil_append]
      exact ih acc
    | cons fr rest =>
      have hres : sheetResultsOf s = [excelSheetResult (fr :: rest) fr] := by
        rw [sheetResultsOf, hj]
      simp only [hj, hres]
      rw [ih]
      simp

theorem sheetJsonRow_fst :
    ∀ (cols : List String) (cells : List (Option String)),
      (sheetJsonRow cols cells).map Prod.fst = cols := by
  intro cols
  induction cols with
  | nil => intro cells; rfl
  | cons c cs ih => intro cells; simp [sheetJsonRow, ih]

/-- C7: the spreadsheet extractor yields exactly one `ParseResult` per sheet
with at least one data row (none for an empty sheet, and no per-sheet
notices); the result's fields are the sheet's header names trimmed and its
errors list is empty; a cell absent from a row is represented as `null`; the
concrete 3-sheet workbook with one empty sheet contributes exactly two results
and zero notices; an unopenable workbook fails with a message naming the file;
and a workbook whose every sheet is empty yields exactly one file-level
no-data notice in the orchestrator. -/
theorem parseExcelFile_per_sheet :
    (∀ (name : String) (sheets : List Sheet),
        parseExcelFile name (.ok sheets) = .ok (sheets.flatMap sheetResultsOf)) ∧
    (∀ s : Sheet, s.rows = [] → sheetResultsOf s = []) ∧
    (∀ s : Sheet, s.rows ≠ [] →
        ∃ r, sheetResultsOf s = [r] ∧ r.fields = s.cols.map jsTrim ∧ r.errors = []) ∧
    (∀ (cols : List String) (cells : List (Option String)),
        (sheetJsonRow cols cells).map Prod.fst = cols) ∧
    (∀ cols : List String, ∀ p ∈ sheetJsonRow cols [], p.2 = none) ∧
    (parseExcelFile "f.xlsx"
        (.ok [⟨"A", ["x"], [[some "1"]]⟩, ⟨"B", ["y"], []⟩, ⟨"C", ["z"], [[some "2"]]⟩]) =
      .ok [⟨[[("x", some "1")]], [], ["x"]⟩, ⟨[[("z", some "2")]], [], ["z"]⟩] ∧
      (processFiles [⟨"f.xlsx", .error "-",
          parseExcelFile "f.xlsx"
            (.ok [⟨"A", ["x"], [[some "1"]]⟩, ⟨"B", ["y"], []⟩,
              ⟨"C", ["z"], [[some "2"]]⟩])⟩]).errors = []) ∧
    (∀ name msg : String,
        parseExcelFile name (.error msg) =
          .error ("Failed to parse \"" ++ name ++
            "\". The file might be corrupted. Details: " ++ msg)) ∧
    (∀ (f : FileInput) (sheets : List Sheet),
        jsEndsWith (jsToLower f.name) ".csv" = false →
        (jsEndsWith (jsToLower f.name) ".xlsx" || jsEndsWith (jsToLower f.name) ".xls") = true →
        f.excelOutcome = parseExcelFile f.name (.ok sheets) →
        (∀ s ∈ sheets, s.rows = []) →
        fileNotices f = [⟨f.name, excelNoDataReason⟩] ∧ fileResults f = []) := by
  have hempty : ∀ s : Sheet, s.rows = [] → sheetResultsOf s = [] := by
    intro s hrows
    rw [sheetResultsOf]
    have hj : sheetToJson s = [] := by rw [sheetToJson, hrows]; rfl
    rw [hj]
  refine ⟨parseExcelFile_ok_eq, hempty, ?_, sheetJsonRow_fst, ?_, ⟨by rfl, by decide⟩,
    fun name msg => rfl, ?_⟩
  · intro s hrows
    cases hr : s.rows with
    | nil => exact absurd hr hrows
    | cons row0 rest =>
      have hj : sheetToJson s =
          sheetJsonRow s.cols row0 :: rest.map (sheetJsonRow s.cols) := by
        rw [sheetToJson, hr]; rfl
      refine ⟨excelSheetResult (sheetJsonRow s.cols row0 :: rest.map (sheetJsonRow s.cols))
        (sheetJsonRow s.cols row0), ?_, ?_, rfl⟩
      · rw [sheetResultsOf, hj]
      · show ((sheetJsonRow s.cols row0).map Prod.fst).map jsTrim = s.cols.map jsTrim
        rw [sheetJsonRow_fst]
  · intro cols
    induction cols with
    | nil => intro p hp; cases hp
    | cons c cs ih =>
      intro p hp
      rcases List.mem_cons.mp hp with rfl | hp2
      · rfl
      · exact ih p hp2
  · intro f sheets hc he heo hall
    have hnil : sheets.flatMap sheetResultsOf = [] :=
      flatMap_nil_of_all_nil sheets sheetResultsOf fun s hs => hempty s (hall s hs)
    rw [parseExcelFile_ok_eq, hnil] at heo
    rcases f with ⟨name, co, eo⟩
    cases heo
    constructor
    · simp [fileNotices, hc, he]
    · simp [fileResults, hc, he]

/-- Witness for C7 at concrete sheets: an empty sheet contributes no result, a
short row's missing trailing cell is null, and a workbook of empty sheets
yields exactly the one no-data notice. -/
theorem parseExcelFile_per_sheet_witness :
    sheetResultsOf ⟨"B", ["y"], []⟩ = [] ∧
    (("b", (none : Option String)) : String × Option String).2 = none ∧
    fileNotices (⟨"f.xlsx", .error "-",
        parseExcelFile "f.xlsx" (.ok [⟨"B", ["y"], []⟩])⟩ : FileInput) =
      [⟨"f.xlsx", excelNoDataReason⟩] ∧
    fileResults (⟨"f.xlsx", .error "-",
        parseExcelFile "f.xlsx" (.ok [⟨"B", ["y"], []⟩])⟩ : FileInput) = [] := by
  refine ⟨parseExcelFile_per_sheet.2.1 ⟨"B", ["y"], []⟩ rfl,
    parseExcelFile_per_sheet.2.2.2.2.1 ["a", "b"] ("b", none) (by decide), ?_, ?_⟩
  · exact (parseExcelFile_per_sheet.2.2.2.2.2.2.2 _ [⟨"B", ["y"], []⟩] (by decide) (by decide)
      rfl (by decide)).1
  · exact (parseExcelFile_per_sheet.2.2.2.2.2.2.2 _ [⟨"B", ["y"], []⟩] (by decide) (by decide)
      rfl (by decide)).2

end DataProc
